import Mathlib

/-!
Verification of the effect/command composition layer of sauron
(crates/sauron-core/src/dom/{effects.rs, cmd.rs}).

Shallow embedding conventions:
* `Vec<T>` becomes `List T`; the `for` loops of `Cmd::batch`, `Cmd::append`
  and `Effects::batch` become `List.foldl` with the loop body as step.
* The boxed `FnOnce(Program)` callbacks of `Cmd` become functions
  `Program MSG → Program MSG` over an observable program state.
* Types that the claims need but whose defining file is not part of the
  excerpt (`Modifier`, `Task`, `Program`) are modelled from the spec; each
  such definition says so in its doc comment.
-/

namespace Sauron

/-- Modelled from the spec: the Execution Modifier (`Modifier`, defined in
`dom/modifier.rs`, which is not among the excerpted files). Three fields —
`should_update_view : bool` (default true), `log_measurements : bool`
(default false), `measurement_name : string` (default empty). -/
structure Modifier where
  should_update_view : Bool
  log_measurements : Bool
  measurement_name : String
deriving DecidableEq

/-- Modelled from the spec: `Modifier::default()` — `should_update_view`
defaults to true, `log_measurements` to false, `measurement_name` to the
empty string. -/
def Modifier.default : Modifier :=
  { should_update_view := true, log_measurements := false, measurement_name := "" }

/-- Modelled from the spec: `Modifier::coalesce` (merge), defined in
`dom/modifier.rs`, which is not among the excerpted files. Per the spec it is
an in-place OR-combine of the two boolean flags, while `measurement_name`
takes the most recently set non-empty value (the exact tie-break is an open
question of the spec; last-writer-wins on non-empty is used here). -/
def Modifier.coalesce (self other : Modifier) : Modifier :=
  { should_update_view := self.should_update_view || other.should_update_view
    log_measurements := self.log_measurements || other.log_measurements
    measurement_name :=
      if other.measurement_name = "" then self.measurement_name
      else other.measurement_name }

/-- Modelled from the spec: the Deferred Task (`Task<MSG>`, defined in
`dom/task.rs`, which is not among the excerpted files): a one-shot
asynchronous computation that yields exactly one message. `value` is the
message the task resolves to; `baseRuns` counts how many times the captured
underlying computation executes during one resolution, and `mapRuns` how many
times transform functions are applied during one resolution (the spec demands
both stay at most one per transform). -/
structure Task (M : Type) where
  value : M
  baseRuns : Nat
  mapRuns : Nat
deriving DecidableEq

/-- Modelled from the spec: constructing a `Task` from a computation yielding
`v`; one resolution executes that computation exactly once and applies no
transform. -/
def Task.new {M : Type} (v : M) : Task M :=
  { value := v, baseRuns := 1, mapRuns := 0 }

/-- Modelled from the spec: `Task::map_msg` — the structure-preserving
transform. The resulting task resolves to `f` of the original's result
without re-running the underlying computation, applying `f` once per
resolution. -/
def Task.map_msg {M M2 : Type} (t : Task M) (f : M → M2) : Task M2 :=
  { value := f t.value, baseRuns := t.baseRuns, mapRuns := t.mapRuns + 1 }

/-- Modelled from the spec: driving a Deferred Task to completion yields its
single message. -/
def Task.resolve {M : Type} (t : Task M) : M := t.value

/-- `Effects<MSG, XMSG>` (src/crates/sauron-core/src/dom/effects.rs): two
ordered channels of deferred tasks plus the embedded modifier. The source
field `local` is a Lean keyword, hence the guillemets. -/
structure Effects (MSG XMSG : Type) where
  «local» : List (Task MSG)
  external : List (Task XMSG)
  modifier : Modifier

/-- `Effects::new` (effects.rs:27-39): wraps immediately-available values of
both channels as already-resolved tasks, default modifier. -/
def Effects.new {MSG XMSG : Type} (loc : List MSG) (ext : List XMSG) :
    Effects MSG XMSG :=
  { «local» := loc.map Task.new, external := ext.map Task.new
    modifier := Modifier.default }

/-- `Effects::with_local` (effects.rs:60-66). -/
def Effects.with_local {MSG XMSG : Type} (loc : List MSG) : Effects MSG XMSG :=
  { «local» := loc.map Task.new, external := [], modifier := Modifier.default }

/-- `Effects::none` (effects.rs:108-114). -/
def Effects.none {MSG XMSG : Type} : Effects MSG XMSG :=
  { «local» := [], external := [], modifier := Modifier.default }

/-- `Effects::map_msg` (effects.rs:120-135): transforms every local task with
`f`; the external channel and the modifier are passed through. -/
def Effects.map_msg {MSG MSG2 XMSG : Type} (self : Effects MSG XMSG)
    (f : MSG → MSG2) : Effects MSG2 XMSG :=
  { «local» := self.«local».map (fun l => l.map_msg f)
    external := self.external
    modifier := self.modifier }

/-- `Effects::map_external` (effects.rs:139-155): transforms every external
task with `f`; the local channel and the modifier are passed through. -/
def Effects.map_external {MSG XMSG XMSG2 : Type} (self : Effects MSG XMSG)
    (f : XMSG → XMSG2) : Effects MSG XMSG2 :=
  { «local» := self.«local»
    external := self.external.map (fun l => l.map_msg f)
    modifier := self.modifier }

/-- `Effects::localize` (effects.rs:161-181): the new local channel is the
original external tasks chained with the original local tasks transformed by
`f`; the new external channel is empty; the modifier is passed through. -/
def Effects.localize {MSG XMSG XMSG2 : Type} (self : Effects MSG XMSG)
    (f : MSG → XMSG) : Effects XMSG XMSG2 :=
  { «local» := self.external ++ self.«local».map (fun x => x.map_msg f)
    external := []
    modifier := self.modifier }

/-- `Effects::no_render` (effects.rs:191-194). -/
def Effects.no_render {MSG XMSG : Type} (self : Effects MSG XMSG) :
    Effects MSG XMSG :=
  { self with modifier := { self.modifier with should_update_view := false } }

/-- The loop body of `Effects::batch` (effects.rs:213-217): extend both
channels and coalesce the modifiers. -/
def Effects.batch_step {MSG XMSG : Type} (acc effect : Effects MSG XMSG) :
    Effects MSG XMSG :=
  { «local» := acc.«local» ++ effect.«local»
    external := acc.external ++ effect.external
    modifier := acc.modifier.coalesce effect.modifier }

/-- `Effects::batch` (effects.rs:209-223): folds all bundles over empty
channels and a default modifier. -/
def Effects.batch {MSG XMSG : Type} (all_effects : List (Effects MSG XMSG)) :
    Effects MSG XMSG :=
  all_effects.foldl Effects.batch_step
    { «local» := [], external := [], modifier := Modifier.default }

/-- An observable dispatch call on the Program collaborator: either the
single-message entry point `dispatch(msg)` or the multi-message entry point
`dispatch_multiple(msgs)`. -/
inductive DispatchCall (MSG : Type) where
  | single (msg : MSG)
  | multiple (msgs : List MSG)
deriving DecidableEq

/-- Modelled from the spec: the Program handle (`Program<APP, MSG>`, an
external collaborator whose file is not among the excerpted files). Under the
single-threaded model every duplicate aliases the same logical program, so
handle and logical state are merged: `dispatched` is the ordered log of
dispatch calls the logical program has received, and `clones` counts how many
handle duplications have been performed. -/
structure Program (MSG : Type) where
  dispatched : List (DispatchCall MSG)
  clones : Nat
deriving DecidableEq

/-- Modelled from the spec: cheap duplication of the Program handle; the
duplicate aliases the same logical program. -/
def Program.clone {MSG : Type} (p : Program MSG) : Program MSG :=
  { p with clones := p.clones + 1 }

/-- Modelled from the spec: `Program::dispatch(msg)` — applies one message. -/
def Program.dispatch {MSG : Type} (p : Program MSG) (msg : MSG) : Program MSG :=
  { p with dispatched := p.dispatched ++ [DispatchCall.single msg] }

/-- Modelled from the spec: `Program::dispatch_multiple(msgs)` — applies a
batch of messages with exactly one subsequent update/render pass. -/
def Program.dispatch_multiple {MSG : Type} (p : Program MSG) (msgs : List MSG) :
    Program MSG :=
  { p with dispatched := p.dispatched ++ [DispatchCall.multiple msgs] }

/-- `Cmd<APP, MSG>` (src/crates/sauron-core/src/dom/cmd.rs:14-22): an ordered
queue of callbacks, each consuming one Program handle, plus the embedded
modifier. The phantom `APP` parameter is dropped. -/
structure Cmd (MSG : Type) where
  commands : List (Program MSG → Program MSG)
  modifier : Modifier

/-- `Cmd::new` (cmd.rs:30-38): a single-callback command with default
modifier. -/
def Cmd.new {MSG : Type} (f : Program MSG → Program MSG) : Cmd MSG :=
  { commands := [f], modifier := Modifier.default }

/-- The loop body of `Cmd::batch` (cmd.rs:46-54), carried over the
accumulator (collected callbacks, `should_update_view`, `log_measurements`):
each flag becomes true when the visited command's flag is true, and the
callbacks are appended. -/
def Cmd.batch_step {MSG : Type}
    (acc : List (Program MSG → Program MSG) × Bool × Bool) (cmd : Cmd MSG) :
    List (Program MSG → Program MSG) × Bool × Bool :=
  (acc.1 ++ cmd.commands,
   acc.2.1 || cmd.modifier.should_update_view,
   acc.2.2 || cmd.modifier.log_measurements)

/-- `Cmd::batch` (cmd.rs:42-63): folds the commands starting from no
callbacks and both flags false; the remaining modifier field
(`measurement_name`) is taken from `Modifier::default()` per the
`..Default::default()` in the source. -/
def Cmd.batch {MSG : Type} (cmds : List (Cmd MSG)) : Cmd MSG :=
  let folded := cmds.foldl Cmd.batch_step ([], false, false)
  { commands := folded.1
    modifier :=
      { should_update_view := folded.2.1
        log_measurements := folded.2.2
        measurement_name := Modifier.default.measurement_name } }

/-- The loop body of `Cmd::append` (cmd.rs:72-80): OR each boolean flag of
the visited command into the receiver's modifier (its `measurement_name` is
untouched) and append the callbacks. -/
def Cmd.append_step {MSG : Type} (acc cmd : Cmd MSG) : Cmd MSG :=
  { commands := acc.commands ++ cmd.commands
    modifier :=
      { should_update_view :=
          acc.modifier.should_update_view || cmd.modifier.should_update_view
        log_measurements :=
          acc.modifier.log_measurements || cmd.modifier.log_measurements
        measurement_name := acc.modifier.measurement_name } }

/-- `Cmd::append` (cmd.rs:71-81); the source mutates `self`, embedded here as
returning the updated receiver. -/
def Cmd.append {MSG : Type} (self : Cmd MSG) (cmds : List (Cmd MSG)) : Cmd MSG :=
  cmds.foldl Cmd.append_step self

/-- `Cmd::push` (cmd.rs:66-68). -/
def Cmd.push {MSG : Type} (self : Cmd MSG) (cmd : Cmd MSG) : Cmd MSG :=
  self.append [cmd]

/-- `Cmd::none` (cmd.rs:84-89): empty queue, default modifier. -/
def Cmd.none {MSG : Type} : Cmd MSG :=
  { commands := [], modifier := Modifier.default }

/-- `Cmd::no_render` (cmd.rs:99-102). -/
def Cmd.no_render {MSG : Type} (self : Cmd MSG) : Cmd MSG :=
  { self with modifier := { self.modifier with should_update_view := false } }

/-- `Cmd::emit` (cmd.rs:119-124): walks the queue in order; each callback is
invoked once, on a fresh clone of the program handle. -/
def Cmd.emit {MSG : Type} (self : Cmd MSG) (program : Program MSG) : Program MSG :=
  self.commands.foldl (fun prog cb => cb (Program.clone prog)) program

/-- `Cmd::batch_msg` (cmd.rs:129-134): one callback that calls
`dispatch_multiple` with the collected message list. -/
def Cmd.batch_msg {MSG : Type} (msg_list : List MSG) : Cmd MSG :=
  Cmd.new (fun program => program.dispatch_multiple msg_list)

/-- `From<Effects<MSG, ()>> for Cmd` (cmd.rs:137-155): destructures the
bundle, ignores the (empty-by-type) external channel, hands the local channel
to `Cmd::batch_msg` and overwrites the modifier with the bundle's. With
`Task` modelled from the spec, handing the local channel over drives each
local task to its resolved message, so the single callback dispatches the
list of resolved local values. -/
def Cmd.from_effects {MSG : Type} (effects : Effects MSG Unit) : Cmd MSG :=
  let cmd := Cmd.batch_msg (effects.«local».map Task.resolve)
  { cmd with modifier := effects.modifier }

/-- C2: for every Effect Bundle and translation function `f`, `localize f`
returns a bundle whose external channel is empty and whose local channel is
exactly the original external tasks (unchanged, in order) followed by the
original local tasks each transformed by `f` (in order); hence its local
length is the original external length plus the original local length. -/
theorem localize_concats_channels {MSG XMSG XMSG2 : Type}
    (e : Effects MSG XMSG) (f : MSG → XMSG) :
    (@Effects.localize MSG XMSG XMSG2 e f).external = [] ∧
    (@Effects.localize MSG XMSG XMSG2 e f).«local»
      = e.external ++ e.«local».map (fun t => t.map_msg f) ∧
    (@Effects.localize MSG XMSG XMSG2 e f).«local».length
      = e.external.length + e.«local».length := by
  refine ⟨rfl, rfl, ?_⟩
  simp [Effects.localize]

/-- C6: for every Effect Bundle and function `f`, `map_msg f` returns a
bundle in which every local task's eventual output is rewritten by `f`
(resolving the i-th new local task yields `f` of the i-th original local
task's resolution), while the external channel is exactly the original one,
untouched. -/
theorem map_msg_rewrites_local_only {MSG MSG2 XMSG : Type}
    (e : Effects MSG XMSG) (f : MSG → MSG2) :
    (e.map_msg f).external = e.external ∧
    (e.map_msg f).«local».map Task.resolve
      = e.«local».map (fun t => f t.resolve) ∧
    (e.map_msg f).«local».length = e.«local».length := by
  refine ⟨rfl, ?_, by simp [Effects.map_msg]⟩
  simp [Effects.map_msg, Task.map_msg, Task.resolve, List.map_map]

/-- C7: transforming a Deferred Task with a pure function `f` and then
resolving it yields the same value as resolving it and then applying `f`;
the transform does not change how often the underlying computation executes
per resolution, and on a freshly constructed task the transformed task
executes the underlying computation at most once and applies a transform at
most once per resolution. -/
theorem task_map_msg_commutes_with_resolve {M M2 : Type}
    (t : Task M) (f : M → M2) :
    (t.map_msg f).resolve = f t.resolve ∧
    (t.map_msg f).baseRuns = t.baseRuns ∧
    (t.map_msg f).mapRuns = t.mapRuns + 1 ∧
    ∀ v : M, ((Task.new v).map_msg f).baseRuns ≤ 1
      ∧ ((Task.new v).map_msg f).mapRuns ≤ 1 :=
  ⟨rfl, rfl, rfl, fun _ => ⟨Nat.le_refl 1, Nat.le_refl 1⟩⟩

/-- C8: emitting the empty Command (`Cmd::none()`) against any program handle
performs zero observable dispatch calls — the dispatch log is unchanged, and
in fact the program state is untouched entirely. -/
theorem none_emit_no_dispatch {MSG : Type} (p : Program MSG) :
    (Cmd.emit Cmd.none p).dispatched = p.dispatched ∧ Cmd.emit Cmd.none p = p :=
  ⟨rfl, rfl⟩

/-- C10: the channel-rewriting operators `map_msg`, `map_external` and
`localize` each return a bundle whose embedded Execution Modifier is exactly
the input bundle's modifier, unchanged. -/
theorem channel_rewrites_preserve_modifier {MSG MSG2 XMSG XMSG2 : Type}
    (e : Effects MSG XMSG) (f : MSG → MSG2) (g : XMSG → XMSG2)
    (k : MSG → XMSG) :
    (e.map_msg f).modifier = e.modifier ∧
    (e.map_external g).modifier = e.modifier ∧
    (@Effects.localize MSG XMSG XMSG2 e k).modifier = e.modifier :=
  ⟨rfl, rfl, rfl⟩

/-- C9: when Commands are combined, the resulting `measurement_name` never
comes from the merged-in inputs: `Cmd::batch` always produces the default
(empty) name, and `Cmd::append` keeps the receiver's name, discarding the
appended Commands' names. -/
theorem combine_discards_merged_in_names {MSG : Type}
    (cmds : List (Cmd MSG)) (c : Cmd MSG) :
    (Cmd.batch cmds).modifier.measurement_name = "" ∧
    (Cmd.append c cmds).modifier.measurement_name
      = c.modifier.measurement_name := by
  refine ⟨rfl, ?_⟩
  induction cmds generalizing c with
  | nil => rfl
  | cons d ds ih => exact ih (Cmd.append_step c d)

/-- C5: modifier merging — as performed pairwise by `Cmd::batch` and
`Cmd::append`, and by the bundle-level `Modifier::coalesce` rule — is
commutative and idempotent on the two boolean fields, and the merged value of
each flag is the OR of the inputs (true iff either input is true). -/
theorem modifier_merge_comm_idem {MSG : Type} (A B : Modifier) (c d : Cmd MSG) :
    (A.coalesce B).should_update_view = (B.coalesce A).should_update_view ∧
    (A.coalesce B).log_measurements = (B.coalesce A).log_measurements ∧
    (A.coalesce A).should_update_view = A.should_update_view ∧
    (A.coalesce A).log_measurements = A.log_measurements ∧
    (A.coalesce B).should_update_view
      = (A.should_update_view || B.should_update_view) ∧
    (A.coalesce B).log_measurements
      = (A.log_measurements || B.log_measurements) ∧
    (Cmd.batch [c, d]).modifier.should_update_view
      = (c.modifier.should_update_view || d.modifier.should_update_view) ∧
    (Cmd.batch [c, d]).modifier.log_measurements
      = (c.modifier.log_measurements || d.modifier.log_measurements) ∧
    (Cmd.batch [c, d]).modifier.should_update_view
      = (Cmd.batch [d, c]).modifier.should_update_view ∧
    (Cmd.batch [c, d]).modifier.log_measurements
      = (Cmd.batch [d, c]).modifier.log_measurements ∧
    (Cmd.append c [d]).modifier.should_update_view
      = (Cmd.append d [c]).modifier.should_update_view ∧
    (Cmd.append c [d]).modifier.log_measurements
      = (Cmd.append d [c]).modifier.log_measurements ∧
    (Cmd.append c [c]).modifier.should_update_view
      = c.modifier.should_update_view ∧
    (Cmd.append c [c]).modifier.log_measurements
      = c.modifier.log_measurements := by
  refine ⟨?_, ?_, ?_, ?_, ?_, ?_, ?_, ?_, ?_, ?_, ?_, ?_, ?_, ?_⟩ <;>
    simp [Modifier.coalesce, Cmd.batch, Cmd.batch_step, Cmd.append,
      Cmd.append_step, Bool.or_comm]

/-- C3 counterexample: two bundles both carrying `should_update_view = false`
still batch to a bundle whose `should_update_view` is true (the fold starts
from the default modifier, whose flag is true, and merging is monotonic), so
the claimed "true iff at least one input is true" fails at this input. -/
theorem batch_pair_suv_iff_counterexample :
    (Effects.batch
        [({ «local» := [], external := [], modifier := ⟨false, false, ""⟩ }
            : Effects Nat Nat),
         { «local» := [], external := [], modifier := ⟨false, false, ""⟩ }]
      ).modifier.should_update_view = true ∧
    ({ «local» := [], external := [], modifier := ⟨false, false, ""⟩ }
        : Effects Nat Nat).modifier.should_update_view = false :=
  ⟨rfl, rfl⟩

/-- C3 (amended): for every pair of bundles, `batch [b1, b2]` concatenates
the local channels in order and the external channels in order; its
`log_measurements` is the OR of the inputs; and its `should_update_view` is
always true — in particular true whenever at least one input's flag is true,
but not only then, because the fold starts from the default modifier whose
flag is already true. -/
theorem batch_pair_concat_and_modifier {MSG XMSG : Type}
    (b1 b2 : Effects MSG XMSG) :
    (Effects.batch [b1, b2]).«local» = b1.«local» ++ b2.«local» ∧
    (Effects.batch [b1, b2]).external = b1.external ++ b2.external ∧
    (Effects.batch [b1, b2]).modifier.should_update_view = true ∧
    (Effects.batch [b1, b2]).modifier.log_measurements
      = (b1.modifier.log_measurements || b2.modifier.log_measurements) := by
  refine ⟨?_, ?_, ?_, ?_⟩ <;>
    simp [Effects.batch, Effects.batch_step, Modifier.coalesce, Modifier.default]

/-- C1: converting an Effect Bundle with an empty external channel into a
Command and emitting it against a program handle appends exactly one
dispatch call to the program's log — a single `dispatch_multiple` carrying
the resolved values of all N local tasks in order (no single-message
dispatches at all) — and the Command's modifier is the bundle's modifier
unchanged. -/
theorem from_effects_single_multi_dispatch {MSG : Type}
    (e : Effects MSG Unit) (p : Program MSG) (h : e.external = []) :
    (Cmd.from_effects e).modifier = e.modifier ∧
    (Cmd.emit (Cmd.from_effects e) p).dispatched
      = p.dispatched ++ [DispatchCall.multiple (e.«local».map Task.resolve)] ∧
    (e.«local».map Task.resolve).length = e.«local».length := by
  refine ⟨rfl, rfl, by simp⟩

/-- C1 witness: a concrete bundle with two local tasks and empty external
channel emits exactly one `dispatch_multiple [10, 20]`. -/
theorem from_effects_single_multi_dispatch_witness :
    ({ «local» := [Task.new 10, Task.new 20], external := [],
        modifier := Modifier.default } : Effects Nat Unit).external = [] ∧
    (Cmd.emit (Cmd.from_effects
        { «local» := [Task.new 10, Task.new 20], external := [],
          modifier := Modifier.default })
        ({ dispatched := [], clones := 0 } : Program Nat)).dispatched
      = [DispatchCall.multiple [10, 20]] :=
  ⟨rfl, by
    simpa [Task.new, Task.resolve] using
      (@from_effects_single_multi_dispatch Nat
        { «local» := [Task.new 10, Task.new 20], external := [],
          modifier := Modifier.default }
        { dispatched := [], clones := 0 } rfl).2.1⟩

/-- A callback characterized purely by the ordered dispatch calls it performs
on the handle it is handed (it neither clones the handle itself nor otherwise
alters the program). The callbacks this layer constructs — `Cmd::batch_msg`'s
multi-dispatcher and `From<Task>`'s single dispatcher — are of this shape. -/
def IsDispatcher {MSG : Type} (cb : Program MSG → Program MSG)
    (calls : List (DispatchCall MSG)) : Prop :=
  ∀ p : Program MSG, cb p = { p with dispatched := p.dispatched ++ calls }

/-- C4: emitting a Command invokes every callback in its queue exactly once,
in insertion order — the program's dispatch log is extended by each
callback's calls, concatenated in queue order — and each callback is handed
its own fresh duplicate of the Program handle, so the clone count rises by
exactly the number of queued callbacks. -/
theorem emit_invokes_all_in_order {MSG : Type}
    (cbs : List (Program MSG → Program MSG))
    (callss : List (List (DispatchCall MSG))) (m : Modifier) (p : Program MSG)
    (h : List.Forall₂ IsDispatcher cbs callss) :
    (Cmd.emit { commands := cbs, modifier := m } p).dispatched
      = p.dispatched ++ callss.flatten ∧
    (Cmd.emit { commands := cbs, modifier := m } p).clones
      = p.clones + cbs.length := by
  induction h generalizing p with
  | nil => exact ⟨by simp [Cmd.emit], by simp [Cmd.emit]⟩
  | @cons cb calls cbs1 callss1 h1 h2 ih =>
    have hstep : Cmd.emit { commands := cb :: cbs1, modifier := m } p
        = Cmd.emit { commands := cbs1, modifier := m } (cb (Program.clone p)) :=
      rfl
    have hcb : cb (Program.clone p)
        = ({ dispatched := p.dispatched ++ calls, clones := p.clones + 1 }
            : Program MSG) :=
      h1 (Program.clone p)
    obtain ⟨ihd, ihc⟩ :=
      ih ({ dispatched := p.dispatched ++ calls, clones := p.clones + 1 })
    constructor
    · rw [hstep, hcb, ihd]
      simp [List.flatten_cons, List.append_assoc]
    · rw [hstep, hcb, ihc]
      simp [List.length_cons]
      omega

/-- C4 witness: a two-callback Command (one single dispatch, one multi
dispatch) emits both calls in order against a fresh program, cloning the
handle twice. -/
theorem emit_invokes_all_in_order_witness :
    List.Forall₂ IsDispatcher
      [fun p => Program.dispatch p (1 : Nat),
       fun p => Program.dispatch_multiple p [2, 3]]
      [[DispatchCall.single 1], [DispatchCall.multiple [2, 3]]] ∧
    (Cmd.emit
        { commands :=
            [fun p => Program.dispatch p (1 : Nat),
             fun p => Program.dispatch_multiple p [2, 3]]
          modifier := Modifier.default }
        { dispatched := [], clones := 0 }).dispatched
      = [DispatchCall.single 1, DispatchCall.multiple [2, 3]] ∧
    (Cmd.emit
        { commands :=
            [fun p => Program.dispatch p (1 : Nat),
             fun p => Program.dispatch_multiple p [2, 3]]
          modifier := Modifier.default }
        { dispatched := [], clones := 0 }).clones = 2 := by
  have hforall : List.Forall₂ IsDispatcher
      [fun p => Program.dispatch p (1 : Nat),
       fun p => Program.dispatch_multiple p [2, 3]]
      [[DispatchCall.single 1], [DispatchCall.multiple [2, 3]]] :=
    List.Forall₂.cons (fun _ => rfl)
      (List.Forall₂.cons (fun _ => rfl) List.Forall₂.nil)
  have h := emit_invokes_all_in_order
    [fun p => Program.dispatch p (1 : Nat),
     fun p => Program.dispatch_multiple p [2, 3]]
    [[DispatchCall.single 1], [DispatchCall.multiple [2, 3]]]
    Modifier.default { dispatched := [], clones := 0 } hforall
  exact ⟨hforall, by simpa using h.1, by simpa using h.2⟩

end Sauron
